import Mathlib

/-!
# Verification of `bgchanger.py` (Benni371/backgroundchanger)

A shallow embedding of the background-changer program. Python values and
effects are modelled explicitly:

* JSON values read from the hash file are an inductive `Json` type;
  Python's `set(...)` constructor over a JSON value is `pySetOfJson`
  (iterables yield their elements, non-iterables raise `TypeError`).
* The hash file on disk is a `HashFileState` (missing / unreadable /
  holding data that may or may not decode as JSON).
* Program state (`PState`) carries the in-memory used-hash set, the
  written image files, the on-disk hash file, which paths raise `IOError`
  on write, and the log of HTTP requests issued.
* The SHA-256 hex digest is abstracted as a parameter
  `sha256hex : List Nat → String`; every theorem below is proved for an
  arbitrary digest function, so in particular for the real SHA-256.
* Sources of randomness (`random.randint` page, `random.shuffle` order,
  `random.choice` index) are passed in explicitly: the shuffled photo
  list is taken as given, and `random.choice(seq)` is modelled as
  `seq[i % len(seq)]` for a supplied index `i`, so a uniformly random
  index gives a uniformly random element.
-/

/-- A JSON value, as produced by Python's `json.load`. -/
inductive Json where
  | null : Json
  | bool (b : Bool) : Json
  | num (n : Int) : Json
  | str (s : String) : Json
  | arr (elems : List Json) : Json
  | obj (fields : List (String × Json)) : Json

/-- Contents of a file from `json.load`'s point of view: either the raw
data fails to decode (`json.JSONDecodeError`) or it decodes to a value. -/
inductive FileData where
  | invalidJson : FileData
  | json (v : Json) : FileData

/-- State of the hash file on disk as seen by `load_used_hashes`
(bgchanger.py lines 40-48): the path may not exist, opening/reading it may
raise `IOError`, or it holds data. -/
inductive HashFileState where
  | missing : HashFileState
  | unreadable : HashFileState
  | data (d : FileData) : HashFileState

/-- A Python exception that escapes to the caller. -/
inductive PyErr where
  | typeError : PyErr

instance : DecidableEq PyErr := fun a b => by
  cases a
  cases b
  exact isTrue rfl

/-- Python's `set(v)` applied to a decoded JSON value `v`: arrays yield
their elements, strings yield their one-character substrings, objects
yield their keys; `null`, booleans and numbers are not iterable and raise
`TypeError`. The result is returned as the list of the set's elements
(membership is the only operation used). -/
def pySetOfJson : Json → Except PyErr (List Json)
  | .arr elems => .ok elems
  | .str s => .ok (s.toList.map (fun c => .str (String.mk [c])))
  | .obj fields => .ok (fields.map (fun kv => .str kv.1))
  | .null => .error .typeError
  | .bool _ => .error .typeError
  | .num _ => .error .typeError

/-- `load_used_hashes` (bgchanger.py lines 40-48): if the file exists, it
runs `set(json.load(f))` catching only `json.JSONDecodeError` and
`IOError` (each caught case returns the empty set); a missing file also
returns the empty set. An exception outside those two classes (e.g. the
`TypeError` from `set()` on a non-iterable JSON value) propagates. -/
def load_used_hashes : HashFileState → Except PyErr (List Json)
  | .missing => .ok []
  | .unreadable => .ok []
  | .data .invalidJson => .ok []
  | .data (.json v) => pySetOfJson v

/-- Index of the last occurrence of `c` in the list, if any
(Python's `str.rfind`). -/
def lastIdxOf (c : Char) : List Char → Option Nat
  | [] => none
  | x :: xs =>
    match lastIdxOf c xs with
    | some i => some (i + 1)
    | none => if x = c then some 0 else none

/-- `pathlib.PurePath.suffix` of a file name: the substring from the last
dot, provided that dot is neither the first nor the last character of the
name; otherwise the empty string. -/
def pySuffix (name : String) : String :=
  let cs := name.toList
  match lastIdxOf '.' cs with
  | some i => if 0 < i ∧ i + 1 < cs.length then String.mk (cs.drop i) else ""
  | none => ""

/-- One entry of a directory listing (`Path.iterdir`): its file name and
whether it is a regular file (`Path.is_file`). -/
structure DirEntry where
  name : String
  isFile : Bool
deriving DecidableEq

/-- Python's `str.lower()` over the ASCII strings this program compares:
each character mapped to its lower-case form. (Lean's `String.toLower`
agrees but is defined by well-founded recursion, which the kernel cannot
evaluate; this map-based form is used so concrete claims reduce.) -/
def pyLower (s : String) : String := String.mk (s.toList.map Char.toLower)

/-- The extension set of `get_local_image` (bgchanger.py line 182). -/
def image_extensions : List String := [".jpg", ".jpeg", ".png", ".bmp", ".gif"]

/-- The filter of `get_local_image` (bgchanger.py lines 183-186):
`f.is_file() and f.suffix.lower() in image_extensions`. -/
def isEligibleImage (f : DirEntry) : Bool :=
  f.isFile && decide (pyLower (pySuffix f.name) ∈ image_extensions)

/-- Rendering of the topic directory path `WALLPAPERS_DIR / query_term`. -/
def localDirPath (queryTerm : String) : String := "wallpapers/" ++ queryTerm

/-- `get_local_image` (bgchanger.py lines 173-195). `dirs` maps a query
term to the listing of its topic subdirectory (`none` when the directory
does not exist); `choiceIdx` feeds `random.choice`, modelled as indexing
by `choiceIdx % length`. Returns the selected file's path, or `None`. -/
def get_local_image (dirs : String → Option (List DirEntry)) (choiceIdx : Nat)
    (queryTerm : String) : Option String :=
  match dirs queryTerm with
  | none => none
  | some entries =>
    let image_files := entries.filter isEligibleImage
    if h : image_files.length = 0 then
      none
    else
      some (localDirPath queryTerm ++ "/" ++
        (image_files.get ⟨choiceIdx % image_files.length,
          Nat.mod_lt _ (Nat.pos_of_ne_zero h)⟩).name)

/-- An HTTP GET issued via `requests.get`: its URL, and the value of the
`Authorization` header if one was passed. -/
structure HttpReq where
  url : String
  auth : Option String
deriving DecidableEq

/-- Mutable program state of a `BackgroundChanger` run:
* `used_hashes` — the in-memory set of used digests (`self.used_hashes`),
  as the list of its elements;
* `files` — image files present on disk, as path/bytes pairs (both the
  pre-existing ones consulted by `save_path.exists()` and the ones this
  run writes);
* `hashFileDisk` — the hash file on disk;
* `hashFileWritable` — whether opening the hash file for writing succeeds
  (`save_used_hashes` catches `IOError` and continues when it does not);
* `unwritable` — image save paths at which `open(save_path, 'wb')` raises
  `IOError`;
* `httpRequests` — the log, in order, of HTTP GETs issued so far. -/
structure PState where
  used_hashes : List String
  files : List (String × List Nat)
  hashFileDisk : HashFileState
  hashFileWritable : Bool
  unwritable : List String
  httpRequests : List HttpReq

/-- `save_used_hashes` (bgchanger.py lines 50-56): serialize
`list(self.used_hashes)` as a JSON array to the hash file, overwriting
it; on `IOError` print a warning and leave the file as it was. -/
def save_used_hashes (s : PState) : PState :=
  if s.hashFileWritable then
    { s with hashFileDisk := .data (.json (.arr (s.used_hashes.map .str))) }
  else
    s

/-- `save_path.exists()` against the modelled file map. -/
def fileExists (s : PState) (p : String) : Bool :=
  s.files.any (fun kv => kv.1 == p)

/-- `download_image` (bgchanger.py lines 87-118), parametrised by the
digest function `sha256hex` (`get_image_hash`, lines 58-60) and the
network `net` (mapping a URL to its bytes, or `none` when `requests.get`
or `raise_for_status` raises `RequestException`). Issues the GET; on
transport error returns `None`; otherwise hashes the bytes, returns
`None` if the digest was already used, returns `None` on `IOError` while
saving (before the digest is registered), and otherwise writes the file,
adds the digest to the in-memory set, persists the set to disk and
returns the save path. -/
def download_image (sha256hex : List Nat → String)
    (net : String → Option (List Nat)) (s : PState) (url savePath : String) :
    PState × Option String :=
  let s1 : PState := { s with httpRequests := s.httpRequests ++ [⟨url, none⟩] }
  match net url with
  | none => (s1, none)
  | some image_data =>
    let image_hash := sha256hex image_data
    if image_hash ∈ s1.used_hashes then
      (s1, none)
    else if savePath ∈ s1.unwritable then
      (s1, none)
    else
      let s2 : PState := { s1 with files := (savePath, image_data) :: s1.files }
      let s3 : PState := { s2 with used_hashes := s2.used_hashes.insert image_hash }
      (save_used_hashes s3, some savePath)

/-- The `add`-then-persist step of the hash store (bgchanger.py lines
107-108): `self.used_hashes.add(image_hash)` followed by
`self.save_used_hashes()`. -/
def addHash (s : PState) (h : String) : PState :=
  save_used_hashes { s with used_hashes := s.used_hashes.insert h }

/-- One parsed entry of the search response's `photos` array:
`photo['id']` and `photo["src"]["original"]`. -/
structure Photo where
  id : Nat
  srcOriginal : String
deriving DecidableEq

/-- The save path `WALLPAPERS_DIR / query_term / f"pexels_{photo['id']}.jpg"`
(bgchanger.py lines 149-152). -/
def savePathFor (queryTerm : String) (photoId : Nat) : String :=
  localDirPath queryTerm ++ "/pexels_" ++ toString photoId ++ ".jpg"

/-- Outcome of the search request of `fetch_from_pexels`:
a `RequestException` (transport error or non-2xx status), a parse error
(`json.JSONDecodeError` / `KeyError`, handled at lines 169-171), or a
parsed `photos` list. The list is taken in post-`random.shuffle` order;
theorems quantify over it, so they hold for every shuffle outcome. -/
inductive ApiOutcome where
  | transportError : ApiOutcome
  | parseError : ApiOutcome
  | ok (photos : List Photo) : ApiOutcome

/-- The search GET (bgchanger.py lines 124-131): fixed endpoint, query
parameters, and the `Authorization` header carrying `self.api_key`
(`none` models the credential being absent from the environment). -/
def searchRequest (queryTerm : String) (page : Nat) (apiKey : Option String) :
    HttpReq :=
  ⟨"https://api.pexels.com/v1/search?query=" ++ queryTerm ++
    "&per_page=80&page=" ++ toString page, apiKey⟩

/-- The candidate loop of `fetch_from_pexels` (bgchanger.py lines
144-161): for each photo in shuffled order, compute the save path, skip
the photo when a file already exists there, otherwise call
`download_image`; return its path on success, continue on `None`;
falling off the loop returns `None` ("All available images have been
used", line 163). -/
def fetchLoop (sha256hex : List Nat → String)
    (net : String → Option (List Nat)) (queryTerm : String) :
    List Photo → PState → PState × Option String
  | [], s => (s, none)
  | photo :: rest, s =>
    let savePath := savePathFor queryTerm photo.id
    if fileExists s savePath then
      fetchLoop sha256hex net queryTerm rest s
    else
      let r := download_image sha256hex net s photo.srcOriginal savePath
      match r.2 with
      | some p => (r.1, some p)
      | none => fetchLoop sha256hex net queryTerm rest r.1

/-- `fetch_from_pexels` (bgchanger.py lines 120-172). The search GET is
issued unconditionally — no check of `self.api_key` occurs anywhere in
the function, so `apiKey` flows only into the request's `Authorization`
header. On zero results (lines 137-141) the code prints two messages,
calls `self.get_local_image(query_term)` WITHOUT binding its result, and
returns `None`; the discarded call is reproduced here verbatim as an
unused `let`. Otherwise it runs the candidate loop. -/
def fetch_from_pexels (sha256hex : List Nat → String)
    (net : String → Option (List Nat))
    (dirs : String → Option (List DirEntry)) (choiceIdx page : Nat)
    (api : ApiOutcome) (apiKey : Option String) (s : PState)
    (queryTerm : String) : PState × Option String :=
  let s1 : PState :=
    { s with httpRequests := s.httpRequests ++ [searchRequest queryTerm page apiKey] }
  match api with
  | .transportError => (s1, none)
  | .parseError => (s1, none)
  | .ok photos =>
    if photos.isEmpty then
      let _ := get_local_image dirs choiceIdx queryTerm
      (s1, none)
    else
      fetchLoop sha256hex net queryTerm photos s1

/-- `change_background` (bgchanger.py lines 197-213). `wallpaperOk`
models the external `set_wallpaper` collaborator (lines 62-85), mapping
the image path to the boolean it returns. When an image path is obtained
the wallpaper call's result is returned; otherwise `False`. -/
def change_background (sha256hex : List Nat → String)
    (net : String → Option (List Nat))
    (dirs : String → Option (List DirEntry)) (wallpaperOk : String → Bool)
    (choiceIdx page : Nat) (api : ApiOutcome) (apiKey : Option String)
    (s : PState) (queryTerm : String) (localOnly : Bool) : PState × Bool :=
  if localOnly then
    match get_local_image dirs choiceIdx queryTerm with
    | some p => (s, wallpaperOk p)
    | none => (s, false)
  else
    let r := fetch_from_pexels sha256hex net dirs choiceIdx page api apiKey s queryTerm
    match r.2 with
    | some p => (r.1, wallpaperOk p)
    | none => (r.1, false)

/-- The truthy strings accepted for the `local_only` flag
(bgchanger.py line 226). -/
def truthyStrings : List String := ["true", "1", "yes", "on"]

/-- The flag parsing of `main` (bgchanger.py lines 222-226): `local_only`
starts `False` and is set from `sys.argv[1].lower()` ONLY when
`len(sys.argv) > 2`. `argv` includes the program name at index 0. -/
def localOnlyFromArgv (argv : List String) : Bool :=
  if h : 2 < argv.length then
    decide (pyLower (argv.get ⟨1, by omega⟩) ∈ truthyStrings)
  else
    false

/-- Everything of a `PState` except the HTTP request log. Changing the
log alone cannot affect behaviour; `download_image` and `fetchLoop`
respect this projection. -/
def sansLog (s : PState) :
    List String × List (String × List Nat) × HashFileState × Bool × List String :=
  (s.used_hashes, s.files, s.hashFileDisk, s.hashFileWritable, s.unwritable)

/-- Concrete digest function for witness scenarios (the theorems hold
for an arbitrary digest). -/
def exSha : List Nat → String := fun b => "h" ++ toString b

/-- Fresh initial state: empty hash set, no files on disk, no hash file
yet, hash file writable, every save path writable, empty request log. -/
def exState0 : PState := ⟨[], [], .missing, true, [], []⟩

/-- A filesystem whose topic directory for `"q"` holds the single
eligible image `x.jpg`. -/
def exDirs1 : String → Option (List DirEntry) :=
  fun q => if q = "q" then some [⟨"x.jpg", true⟩] else none

/-- A network on which every GET raises `RequestException`. -/
def exNetNone : String → Option (List Nat) := fun _ => none

/-- A network on which only the URL `u2` succeeds. -/
def exNet2 : String → Option (List Nat) :=
  fun u => if u = "u2" then some [1, 2, 3] else none

/-- A network serving byte-identical content at two distinct URLs. -/
def exNet6 : String → Option (List Nat) :=
  fun u => if u = "u1" then some [9] else if u = "u2" then some [9] else none

/-- The spec's LocalVariant filtering scenario: a directory holding
`a.jpg`, `b.txt`, `c.PNG`, all regular files. -/
def exDirs8 : String → Option (List DirEntry) :=
  fun q =>
    if q = "q" then some [⟨"a.jpg", true⟩, ⟨"b.txt", true⟩, ⟨"c.PNG", true⟩]
    else none

/-- A state on which writing the image file `wallpapers/q/pexels_1.jpg`
raises `IOError`. -/
def exState9 : PState := ⟨[], [], .missing, true, ["wallpapers/q/pexels_1.jpg"], []⟩

/-! ## Helper lemmas -/

theorem save_used_hashes_used (s : PState) :
    (save_used_hashes s).used_hashes = s.used_hashes := by
  unfold save_used_hashes
  split
  · rfl
  · rfl

theorem save_used_hashes_writable (s : PState) :
    (save_used_hashes s).hashFileWritable = s.hashFileWritable := by
  unfold save_used_hashes
  split
  · rfl
  · rfl

theorem addHash_used (s : PState) (h : String) :
    (addHash s h).used_hashes = s.used_hashes.insert h := by
  unfold addHash
  rw [save_used_hashes_used]

theorem addHash_writable (s : PState) (h : String) :
    (addHash s h).hashFileWritable = s.hashFileWritable := by
  unfold addHash
  rw [save_used_hashes_writable]

theorem foldl_addHash_mem (hs : List String) (s : PState) (x : String) :
    x ∈ (hs.foldl addHash s).used_hashes ↔ x ∈ s.used_hashes ∨ x ∈ hs := by
  induction hs generalizing s with
  | nil => simp
  | cons h t ih =>
    rw [List.foldl_cons, ih, addHash_used]
    simp [List.mem_insert_iff]
    tauto

theorem foldl_addHash_writable (hs : List String) (s : PState) :
    (hs.foldl addHash s).hashFileWritable = s.hashFileWritable := by
  induction hs generalizing s with
  | nil => rfl
  | cons h t ih =>
    rw [List.foldl_cons, ih, addHash_writable]

theorem foldl_addHash_disk (hs : List String) (s : PState)
    (hw : s.hashFileWritable = true) (hne : hs ≠ []) :
    (hs.foldl addHash s).hashFileDisk =
      .data (.json (.arr ((hs.foldl addHash s).used_hashes.map .str))) := by
  induction hs generalizing s with
  | nil => exact absurd rfl hne
  | cons h t ih =>
    rw [List.foldl_cons]
    rcases eq_or_ne t [] with ht | ht
    · subst ht
      simp only [List.foldl_nil]
      unfold addHash save_used_hashes
      simp [hw]
    · exact ih (addHash s h) (by rw [addHash_writable]; exact hw) ht


theorem download_image_requests (sha256hex : List Nat → String)
    (net : String → Option (List Nat)) (s : PState) (url savePath : String) :
    (download_image sha256hex net s url savePath).1.httpRequests =
      s.httpRequests ++ [⟨url, none⟩] := by
  unfold download_image save_used_hashes
  cases net url with
  | none => rfl
  | some b =>
    simp only []
    split
    · rfl
    · split
      · rfl
      · split
        · rfl
        · rfl

theorem download_image_sansLog (sha256hex : List Nat → String)
    (net : String → Option (List Nat)) (s s' : PState) (url savePath : String)
    (h : sansLog s = sansLog s') :
    (download_image sha256hex net s url savePath).2 =
      (download_image sha256hex net s' url savePath).2 ∧
    sansLog (download_image sha256hex net s url savePath).1 =
      sansLog (download_image sha256hex net s' url savePath).1 := by
  obtain ⟨h1, h2, h3, h4, h5⟩ : s.used_hashes = s'.used_hashes ∧
      s.files = s'.files ∧ s.hashFileDisk = s'.hashFileDisk ∧
      s.hashFileWritable = s'.hashFileWritable ∧ s.unwritable = s'.unwritable := by
    simpa [sansLog, Prod.ext_iff] using h
  unfold download_image save_used_hashes
  cases net url with
  | none => exact ⟨rfl, by simp [sansLog, h1, h2, h3, h4, h5]⟩
  | some b =>
    simp only [h1, h5]
    split
    · exact ⟨rfl, by simp [sansLog, h1, h2, h3, h4, h5]⟩
    · split
      · exact ⟨rfl, by simp [sansLog, h1, h2, h3, h4, h5]⟩
      · simp only [h1, h2, h4]
        split
        · exact ⟨by simp, by simp [sansLog, h1, h2, h3, h4, h5]⟩
        · exact ⟨by simp, by simp [sansLog, h1, h2, h3, h4, h5]⟩

theorem fileExists_sansLog (s s' : PState) (p : String)
    (h : sansLog s = sansLog s') : fileExists s p = fileExists s' p := by
  have h2 : s.files = s'.files := congrArg (fun t => t.2.1) h
  unfold fileExists
  rw [h2]

theorem fetchLoop_sansLog (sha256hex : List Nat → String)
    (net : String → Option (List Nat)) (queryTerm : String)
    (photos : List Photo) (s s' : PState) (h : sansLog s = sansLog s') :
    (fetchLoop sha256hex net queryTerm photos s).2 =
      (fetchLoop sha256hex net queryTerm photos s').2 := by
  induction photos generalizing s s' with
  | nil => rfl
  | cons photo rest ih =>
    unfold fetchLoop
    dsimp only
    rw [fileExists_sansLog s s' _ h]
    split
    · exact ih s s' h
    · obtain ⟨hr2, hr1⟩ :=
        download_image_sansLog sha256hex net s s' photo.srcOriginal
          (savePathFor queryTerm photo.id) h
      rw [hr2]
      cases hd : (download_image sha256hex net s' photo.srcOriginal
          (savePathFor queryTerm photo.id)).2 with
      | some p => simp [hd]
      | none =>
        simp only [hd]
        exact ih _ _ hr1

theorem fetchLoop_requests_mono (sha256hex : List Nat → String)
    (net : String → Option (List Nat)) (queryTerm : String)
    (photos : List Photo) (s : PState) :
    ∃ t, (fetchLoop sha256hex net queryTerm photos s).1.httpRequests =
      s.httpRequests ++ t := by
  induction photos generalizing s with
  | nil => exact ⟨[], by simp [fetchLoop]⟩
  | cons photo rest ih =>
    unfold fetchLoop
    dsimp only
    split
    · exact ih s
    · cases hd : (download_image sha256hex net s photo.srcOriginal
          (savePathFor queryTerm photo.id)).2 with
      | some p =>
        simp only [hd]
        exact ⟨[⟨photo.srcOriginal, none⟩],
          download_image_requests sha256hex net s photo.srcOriginal
            (savePathFor queryTerm photo.id)⟩
      | none =>
        simp only [hd]
        obtain ⟨t, ht⟩ := ih (download_image sha256hex net s photo.srcOriginal
          (savePathFor queryTerm photo.id)).1
        refine ⟨⟨photo.srcOriginal, none⟩ :: t, ?_⟩
        rw [ht, download_image_requests, List.append_assoc]
        rfl

/-! ## Claim theorems -/

/-- C1 (code bug, evaluated at the failing input): with zero search
results for topic `"q"` and a topic directory holding the eligible image
`x.jpg`, `get_local_image` does return that image, yet
`fetch_from_pexels` returns `None`: line 140 calls
`self.get_local_image(query_term)` without binding its result, so the
local image is not the acquisition's result. The request log shows only
the search GET (no download was attempted) and no file was written. -/
theorem c1_zero_results_local_image_discarded :
    get_local_image exDirs1 0 "q" = some "wallpapers/q/x.jpg" ∧
    (fetch_from_pexels exSha exNetNone exDirs1 0 3 (.ok []) (some "KEY")
      exState0 "q").2 = none ∧
    (fetch_from_pexels exSha exNetNone exDirs1 0 3 (.ok []) (some "KEY")
      exState0 "q").1.httpRequests = [searchRequest "q" 3 (some "KEY")] ∧
    (fetch_from_pexels exSha exNetNone exDirs1 0 3 (.ok []) (some "KEY")
      exState0 "q").1.files = [] :=
  ⟨by decide, by decide, by decide, by decide⟩

/-- C2 counterexample: on the concrete network where the first shuffled
candidate's URL `u1` raises a transport error and the second candidate's
URL `u2` serves bytes, `fetch_from_pexels` does not fail the whole
attempt: it proceeds past the failed candidate and returns the second
candidate's path — refuting "the network error is propagated ... and no
further candidates are tried". -/
theorem c2_counterexample :
    exNet2 "u1" = none ∧
    (fetch_from_pexels exSha exNet2 exDirs1 0 3
      (.ok [⟨1, "u1"⟩, ⟨2, "u2"⟩]) (some "KEY") exState0 "q").2 =
      some "wallpapers/q/pexels_2.jpg" :=
  ⟨rfl, rfl⟩

/-- C2 (amended): when fetching a candidate's bytes fails with a
transport error, `download_image` catches the `RequestException` and
returns `None` for that candidate, leaving all state except the request
log unchanged (no retry of that candidate occurs), and the candidate
loop proceeds to the remaining candidates rather than failing the whole
attempt. -/
theorem c2_transport_error_continues (sha256hex : List Nat → String)
    (net : String → Option (List Nat)) (queryTerm : String) (photo : Photo)
    (rest : List Photo) (s : PState)
    (herr : net photo.srcOriginal = none)
    (hnew : fileExists s (savePathFor queryTerm photo.id) = false) :
    (download_image sha256hex net s photo.srcOriginal
      (savePathFor queryTerm photo.id)).2 = none ∧
    sansLog (download_image sha256hex net s photo.srcOriginal
      (savePathFor queryTerm photo.id)).1 = sansLog s ∧
    fetchLoop sha256hex net queryTerm (photo :: rest) s =
      fetchLoop sha256hex net queryTerm rest
        (download_image sha256hex net s photo.srcOriginal
          (savePathFor queryTerm photo.id)).1 := by
  have hd : download_image sha256hex net s photo.srcOriginal
      (savePathFor queryTerm photo.id) =
      ({ s with httpRequests :=
          s.httpRequests ++ [⟨photo.srcOriginal, none⟩] }, none) := by
    unfold download_image
    rw [herr]
  refine ⟨by rw [hd], by rw [hd]; rfl, ?_⟩
  conv_lhs => rw [fetchLoop]
  rw [hd]
  simp [hnew]

/-- C3 (code bug, evaluated at the failing input): invoking the program
with a single flag argument (`sys.argv = ["bgchanger.py", "true"]`) does
NOT enable local-only mode, because `main` reads the flag only when
`len(sys.argv) > 2` (line 224); with a second dummy argument present the
same flag value does enable it, confirming the off-by-one guard as the
cause. -/
theorem c3_single_flag_not_parsed :
    localOnlyFromArgv ["bgchanger.py", "true"] = false ∧
    localOnlyFromArgv ["bgchanger.py", "true", "dummy"] = true := by
  constructor
  · rfl
  · decide

/-- C5 counterexample: a hash file whose content is the valid JSON value
`42` is malformed data for the store, yet `load_used_hashes` does not
return the empty set: `set(42)` raises `TypeError`, which the
`except (json.JSONDecodeError, IOError)` clause does not catch, so the
exception escapes to the caller. -/
theorem c5_counterexample :
    load_used_hashes (.data (.json (.num 42))) = .error .typeError :=
  rfl

/-- C5 (amended): `load_used_hashes` returns the empty set, without
raising, when the hash file is missing, unreadable (`IOError`), or holds
data that is not valid JSON (`json.JSONDecodeError`); a file holding
valid JSON of a non-iterable type instead raises an uncaught
`TypeError`. -/
theorem c5_load_resilient (fs : HashFileState)
    (h : fs = .missing ∨ fs = .unreadable ∨ fs = .data .invalidJson) :
    load_used_hashes fs = .ok [] := by
  rcases h with h | h | h
  · subst h
    rfl
  · subst h
    rfl
  · subst h
    rfl

/-- Witness for C5's amended theorem at two concrete file states. -/
theorem c5_load_resilient_witness :
    load_used_hashes .missing = .ok [] ∧
    load_used_hashes (.data .invalidJson) = .ok [] :=
  ⟨c5_load_resilient .missing (Or.inl rfl),
   c5_load_resilient (.data .invalidJson) (Or.inr (Or.inr rfl))⟩

/-- Witness for C2's amended theorem at a concrete failing candidate. -/
theorem c2_transport_error_continues_witness :
    (download_image exSha exNetNone exState0 "u1" (savePathFor "q" 1)).2 = none ∧
    sansLog (download_image exSha exNetNone exState0 "u1"
      (savePathFor "q" 1)).1 = sansLog exState0 ∧
    fetchLoop exSha exNetNone "q" [⟨1, "u1"⟩] exState0 =
      fetchLoop exSha exNetNone "q" []
        (download_image exSha exNetNone exState0 "u1" (savePathFor "q" 1)).1 :=
  c2_transport_error_continues exSha exNetNone "q" ⟨1, "u1"⟩ [] exState0 rfl rfl

/-- C4 counterexample: with the API credential absent (`None`), the
remote variant surfaces no configuration error and the run does not fail
before the network: the search GET is issued (with `None` as the
`Authorization` header value), the response is processed, and here the
acquisition even succeeds — refuting "a configuration error is surfaced
before any network call is made". -/
theorem c4_counterexample :
    (fetch_from_pexels exSha exNet2 exDirs1 0 3 (.ok [⟨2, "u2"⟩]) none
      exState0 "q").2 = some "wallpapers/q/pexels_2.jpg" ∧
    (fetch_from_pexels exSha exNet2 exDirs1 0 3 (.ok [⟨2, "u2"⟩]) none
      exState0 "q").1.httpRequests =
      [searchRequest "q" 3 none, ⟨"u2", none⟩] :=
  ⟨by decide, by decide⟩

/-- C4 (amended): `fetch_from_pexels` performs no credential check at
all: for every credential value (present or absent) the search GET is
issued, carrying that value as the `Authorization` header, and the
acquisition's result is the same as with an absent credential — a
missing key can only surface later, as a transport error produced by the
server's response. -/
theorem c4_no_credential_check (sha256hex : List Nat → String)
    (net : String → Option (List Nat)) (dirs : String → Option (List DirEntry))
    (choiceIdx page : Nat) (api : ApiOutcome) (apiKey : Option String)
    (s : PState) (queryTerm : String) :
    (∃ t, (fetch_from_pexels sha256hex net dirs choiceIdx page api apiKey s
        queryTerm).1.httpRequests =
      s.httpRequests ++ searchRequest queryTerm page apiKey :: t) ∧
    (fetch_from_pexels sha256hex net dirs choiceIdx page api apiKey s
        queryTerm).2 =
      (fetch_from_pexels sha256hex net dirs choiceIdx page api none s
        queryTerm).2 := by
  unfold fetch_from_pexels
  cases api with
  | transportError => exact ⟨⟨[], by simp⟩, rfl⟩
  | parseError => exact ⟨⟨[], by simp⟩, rfl⟩
  | ok photos =>
    dsimp only
    by_cases hemp : photos.isEmpty
    · rw [if_pos hemp, if_pos hemp]
      exact ⟨⟨[], by simp⟩, rfl⟩
    · rw [if_neg hemp, if_neg hemp]
      constructor
      · obtain ⟨t, ht⟩ := fetchLoop_requests_mono sha256hex net queryTerm photos
          { s with httpRequests :=
              s.httpRequests ++ [searchRequest queryTerm page apiKey] }
        refine ⟨t, ?_⟩
        rw [ht]
        simp
      · exact fetchLoop_sansLog sha256hex net queryTerm photos _ _ rfl

/-- C6 (confirmed): for two distinct candidates whose downloads are
byte-identical, the first `download_image` call saves the bytes at its
path, registers the digest in the in-memory set and immediately persists
the set to the hash file, returning the path; a second call for the same
bytes at a fresh path finds the digest in the set and returns `None`,
writing no file and changing nothing except the request log; and the
candidate loop, on that `None`, proceeds to the remaining candidates. -/
theorem c6_duplicate_bytes_skipped (sha256hex : List Nat → String)
    (net : String → Option (List Nat)) (s : PState)
    (url1 url2 p1 p2 : String) (b : List Nat) (queryTerm : String)
    (photo2 : Photo) (rest : List Photo)
    (h1 : net url1 = some b) (h2 : net url2 = some b)
    (hfresh : sha256hex b ∉ s.used_hashes) (hw1 : p1 ∉ s.unwritable)
    (hwr : s.hashFileWritable = true) :
    (download_image sha256hex net s url1 p1).2 = some p1 ∧
    (p1, b) ∈ (download_image sha256hex net s url1 p1).1.files ∧
    sha256hex b ∈ (download_image sha256hex net s url1 p1).1.used_hashes ∧
    (download_image sha256hex net s url1 p1).1.hashFileDisk =
      .data (.json (.arr
        ((download_image sha256hex net s url1 p1).1.used_hashes.map .str))) ∧
    (download_image sha256hex net
      (download_image sha256hex net s url1 p1).1 url2 p2).2 = none ∧
    sansLog (download_image sha256hex net
        (download_image sha256hex net s url1 p1).1 url2 p2).1 =
      sansLog (download_image sha256hex net s url1 p1).1 ∧
    (photo2.srcOriginal = url2 → savePathFor queryTerm photo2.id = p2 →
      fileExists (download_image sha256hex net s url1 p1).1 p2 = false →
      fetchLoop sha256hex net queryTerm (photo2 :: rest)
          (download_image sha256hex net s url1 p1).1 =
        fetchLoop sha256hex net queryTerm rest
          (download_image sha256hex net
            (download_image sha256hex net s url1 p1).1 url2 p2).1) := by
  have hd1 : download_image sha256hex net s url1 p1 =
      ({ s with
          httpRequests := s.httpRequests ++ [⟨url1, none⟩],
          files := (p1, b) :: s.files,
          used_hashes := s.used_hashes.insert (sha256hex b),
          hashFileDisk := .data (.json (.arr
            ((s.used_hashes.insert (sha256hex b)).map .str))) },
        some p1) := by
    unfold download_image save_used_hashes
    rw [h1]
    dsimp only
    rw [if_neg hfresh, if_neg hw1, if_pos hwr]
  have hmem : sha256hex b ∈ (download_image sha256hex net s url1 p1).1.used_hashes := by
    rw [hd1]
    exact List.mem_insert_self _ _
  have hd2 : ∀ s1 : PState, sha256hex b ∈ s1.used_hashes →
      download_image sha256hex net s1 url2 p2 =
      ({ s1 with httpRequests := s1.httpRequests ++ [⟨url2, none⟩] }, none) := by
    intro s1 hm
    unfold download_image
    rw [h2]
    dsimp only
    rw [if_pos hm]
  refine ⟨by rw [hd1], ?_, hmem, by rw [hd1], by rw [hd2 _ hmem],
    by rw [hd2 _ hmem]; rfl, ?_⟩
  · rw [hd1]
    exact List.mem_cons_self _ _
  · intro hu hp hne
    conv_lhs => rw [fetchLoop]
    dsimp only
    rw [hp, hne]
    rw [hu]
    simp [hd2 _ hmem]

/-- Witness for C6 at concrete inputs: two candidates at distinct paths
whose URLs serve identical bytes; the first is saved, the second is
skipped as a duplicate. -/
theorem c6_duplicate_bytes_skipped_witness :
    (download_image exSha exNet6 exState0 "u1" (savePathFor "q" 1)).2 =
      some (savePathFor "q" 1) ∧
    (download_image exSha exNet6
      (download_image exSha exNet6 exState0 "u1" (savePathFor "q" 1)).1
      "u2" (savePathFor "q" 2)).2 = none := by
  have h := c6_duplicate_bytes_skipped exSha exNet6 exState0 "u1" "u2"
    (savePathFor "q" 1) (savePathFor "q" 2) [9] "q" ⟨2, "u2"⟩ [] rfl rfl
    (by simp [exState0]) (by simp [exState0]) rfl
  exact ⟨h.1, h.2.2.2.2.1⟩

/-- C7 (confirmed): starting from a store whose in-memory set is empty
and whose hash file is writable, after any sequence of `add`-and-persist
steps (lines 107-108) the in-memory set contains exactly the added
hashes, and a fresh `load_used_hashes` of the resulting on-disk file
succeeds and contains every added hash. -/
theorem c7_hashstore_roundtrip (s : PState) (hs : List String)
    (h0 : s.used_hashes = []) (hw : s.hashFileWritable = true) :
    (∀ x, x ∈ (hs.foldl addHash s).used_hashes ↔ x ∈ hs) ∧
    (∀ x ∈ hs, ∃ l, load_used_hashes (hs.foldl addHash s).hashFileDisk =
      .ok l ∧ Json.str x ∈ l) := by
  constructor
  · intro x
    rw [foldl_addHash_mem, h0]
    simp
  · intro x hx
    have hne : hs ≠ [] := by
      rintro rfl
      simp at hx
    rw [foldl_addHash_disk hs s hw hne]
    refine ⟨_, rfl, ?_⟩
    exact List.mem_map_of_mem _ ((foldl_addHash_mem hs s x).mpr (Or.inr hx))

/-- Witness for C7 at a concrete two-element add sequence. -/
theorem c7_hashstore_roundtrip_witness :
    ("d1" ∈ (["d1", "d2"].foldl addHash exState0).used_hashes) ∧
    ("d3" ∉ (["d1", "d2"].foldl addHash exState0).used_hashes) ∧
    ∃ l, load_used_hashes ((["d1", "d2"].foldl addHash exState0).hashFileDisk) =
      .ok l ∧ Json.str "d2" ∈ l := by
  have h := c7_hashstore_roundtrip exState0 ["d1", "d2"] rfl rfl
  refine ⟨(h.1 "d1").mpr (by simp), ?_, h.2 "d2" (by simp)⟩
  intro hmem
  have hin := (h.1 "d3").mp hmem
  simp at hin

/-- C9 (confirmed): when the network serves bytes whose digest is new
but writing them to the save path raises `IOError`, `download_image`
returns `None` and neither the in-memory hash set, nor the on-disk hash
file, nor the file map is modified — the digest is registered only after
the file write succeeds (lines 102-108: the `add`/`save` calls follow
the `open`/`write`, and the `except IOError` branch returns before
them). -/
theorem c9_save_failure_no_registration (sha256hex : List Nat → String)
    (net : String → Option (List Nat)) (s : PState) (url savePath : String)
    (b : List Nat) (hb : net url = some b)
    (hfresh : sha256hex b ∉ s.used_hashes) (hbad : savePath ∈ s.unwritable) :
    (download_image sha256hex net s url savePath).2 = none ∧
    (download_image sha256hex net s url savePath).1.used_hashes = s.used_hashes ∧
    (download_image sha256hex net s url savePath).1.hashFileDisk = s.hashFileDisk ∧
    (download_image sha256hex net s url savePath).1.files = s.files := by
  have hd : download_image sha256hex net s url savePath =
      ({ s with httpRequests := s.httpRequests ++ [⟨url, none⟩] }, none) := by
    unfold download_image
    rw [hb]
    dsimp only
    rw [if_neg hfresh, if_pos hbad]
  rw [hd]
  exact ⟨rfl, rfl, rfl, rfl⟩

/-- Witness for C9: on `exState9` the save path is unwritable, and the
failed download registers nothing. -/
theorem c9_save_failure_no_registration_witness :
    (download_image exSha exNet6 exState9 "u1" "wallpapers/q/pexels_1.jpg").2 = none ∧
    (download_image exSha exNet6 exState9 "u1"
      "wallpapers/q/pexels_1.jpg").1.used_hashes = exState9.used_hashes ∧
    (download_image exSha exNet6 exState9 "u1"
      "wallpapers/q/pexels_1.jpg").1.hashFileDisk = exState9.hashFileDisk ∧
    (download_image exSha exNet6 exState9 "u1"
      "wallpapers/q/pexels_1.jpg").1.files = exState9.files :=
  c9_save_failure_no_registration exSha exNet6 exState9 "u1"
    "wallpapers/q/pexels_1.jpg" [9] rfl (by simp [exState9]) (by simp [exState9])

/-- C10 (confirmed): in local-only mode `change_background` leaves the
whole program state — in particular the in-memory hash set and the
on-disk hash file, and also the file map and the request log — exactly
as it was; when the local pick succeeds the wallpaper setter is applied
to it and its boolean is the run's result, and when it fails the result
is `False`. -/
theorem c10_local_only_no_hash_mutation (sha256hex : List Nat → String)
    (net : String → Option (List Nat)) (dirs : String → Option (List DirEntry))
    (wallpaperOk : String → Bool) (choiceIdx page : Nat) (api : ApiOutcome)
    (apiKey : Option String) (s : PState) (queryTerm : String) :
    (change_background sha256hex net dirs wallpaperOk choiceIdx page api apiKey
      s queryTerm true).1 = s ∧
    (∀ p, get_local_image dirs choiceIdx queryTerm = some p →
      (change_background sha256hex net dirs wallpaperOk choiceIdx page api
        apiKey s queryTerm true).2 = wallpaperOk p) ∧
    (get_local_image dirs choiceIdx queryTerm = none →
      (change_background sha256hex net dirs wallpaperOk choiceIdx page api
        apiKey s queryTerm true).2 = false) := by
  unfold change_background
  cases hg : get_local_image dirs choiceIdx queryTerm with
  | none => simp [hg]
  | some p => simp [hg]

/-- Witness for C10 at a concrete local-only run that succeeds. -/
theorem c10_local_only_no_hash_mutation_witness :
    (change_background exSha exNetNone exDirs1 (fun _ => true) 0 3
      .transportError none exState0 "q" true).1 = exState0 ∧
    (change_background exSha exNetNone exDirs1 (fun _ => true) 0 3
      .transportError none exState0 "q" true).2 = true := by
  have h := c10_local_only_no_hash_mutation exSha exNetNone exDirs1
    (fun _ => true) 0 3 .transportError none exState0 "q"
  exact ⟨h.1, h.2.1 "wallpapers/q/x.jpg" (by decide)⟩

/-- C8 (confirmed): `get_local_image` fails when the topic directory
does not exist; given its listing, the filtered candidate list contains
exactly the regular files whose suffix lower-cases to a dot followed by
one of jpg/jpeg/png/bmp/gif; the call fails iff that list is empty; for
choice index `i` it returns the `i % n`-th candidate (so a uniformly
random index yields a uniformly random candidate); and every candidate
is returned for some index. -/
theorem c8_get_local_image_spec (dirs : String → Option (List DirEntry))
    (queryTerm : String) (i : Nat) :
    (dirs queryTerm = none → get_local_image dirs i queryTerm = none) ∧
    (∀ entries, dirs queryTerm = some entries →
      (∀ f ∈ entries, (f ∈ entries.filter isEligibleImage ↔
        (f.isFile = true ∧ ∃ e ∈ ["jpg", "jpeg", "png", "bmp", "gif"],
          pyLower (pySuffix f.name) = "." ++ e))) ∧
      ((get_local_image dirs i queryTerm = none) ↔
        entries.filter isEligibleImage = []) ∧
      (∀ hne : entries.filter isEligibleImage ≠ [],
        get_local_image dirs i queryTerm = some (localDirPath queryTerm ++ "/" ++
          ((entries.filter isEligibleImage).get
            ⟨i % (entries.filter isEligibleImage).length,
             Nat.mod_lt _ (List.length_pos.mpr hne)⟩).name)) ∧
      (∀ f ∈ entries.filter isEligibleImage, ∃ j,
        get_local_image dirs j queryTerm =
          some (localDirPath queryTerm ++ "/" ++ f.name))) := by
  constructor
  · intro hd
    unfold get_local_image
    rw [hd]
  · intro entries hd
    refine ⟨?_, ?_, ?_, ?_⟩
    · intro f hf
      rw [List.mem_filter]
      simp only [hf, true_and, isEligibleImage, Bool.and_eq_true, decide_eq_true_eq]
      constructor
      · rintro ⟨hfile, hext⟩
        refine ⟨hfile, ?_⟩
        simp only [image_extensions, List.mem_cons, List.not_mem_nil, or_false] at hext
        rcases hext with hx | hx | hx | hx | hx
        · exact ⟨"jpg", by simp, hx⟩
        · exact ⟨"jpeg", by simp, hx⟩
        · exact ⟨"png", by simp, hx⟩
        · exact ⟨"bmp", by simp, hx⟩
        · exact ⟨"gif", by simp, hx⟩
      · rintro ⟨hfile, e, he, hx⟩
        refine ⟨hfile, ?_⟩
        simp only [List.mem_cons, List.not_mem_nil, or_false] at he
        simp only [image_extensions, List.mem_cons, List.not_mem_nil, or_false]
        rcases he with he | he | he | he | he
        · subst he
          exact Or.inl hx
        · subst he
          exact Or.inr (Or.inl hx)
        · subst he
          exact Or.inr (Or.inr (Or.inl hx))
        · subst he
          exact Or.inr (Or.inr (Or.inr (Or.inl hx)))
        · subst he
          exact Or.inr (Or.inr (Or.inr (Or.inr hx)))
    · unfold get_local_image
      rw [hd]
      dsimp only
      by_cases hz : (entries.filter isEligibleImage).length = 0
      · rw [dif_pos hz]
        simp [List.length_eq_zero.mp hz]
      · rw [dif_neg hz]
        simp only [List.length_eq_zero] at hz
        simp [hz]
    · intro hne
      unfold get_local_image
      rw [hd]
      dsimp only
      rw [dif_neg (fun hz => hne (List.length_eq_zero.mp hz))]
    · intro f hf
      have hne : entries.filter isEligibleImage ≠ [] := by
        intro hcon
        rw [hcon] at hf
        exact List.not_mem_nil f hf
      obtain ⟨idx, hidx⟩ := List.mem_iff_get.mp hf
      refine ⟨idx.val, ?_⟩
      unfold get_local_image
      rw [hd]
      dsimp only
      rw [dif_neg (fun hz => hne (List.length_eq_zero.mp hz))]
      have hmod : idx.val % (entries.filter isEligibleImage).length = idx.val :=
        Nat.mod_eq_of_lt idx.isLt
      have hget : ∀ hlt : idx.val % (entries.filter isEligibleImage).length <
          (entries.filter isEligibleImage).length,
          (entries.filter isEligibleImage).get
            ⟨idx.val % (entries.filter isEligibleImage).length, hlt⟩ = f := by
        intro hlt
        have hv : (⟨idx.val % (entries.filter isEligibleImage).length, hlt⟩ :
            Fin (entries.filter isEligibleImage).length) = idx := Fin.ext hmod
        rw [hv, hidx]
      rw [hget _]

/-- Witness for C8 on the spec's scenario directory `a.jpg`, `b.txt`,
`c.PNG`: exactly the two images are eligible, and index 1 selects
`c.PNG`. -/
theorem c8_get_local_image_spec_witness :
    ((⟨"a.jpg", true⟩ : DirEntry) ∈
      ([⟨"a.jpg", true⟩, ⟨"b.txt", true⟩, ⟨"c.PNG", true⟩] :
        List DirEntry).filter isEligibleImage) ∧
    ((⟨"b.txt", true⟩ : DirEntry) ∉
      ([⟨"a.jpg", true⟩, ⟨"b.txt", true⟩, ⟨"c.PNG", true⟩] :
        List DirEntry).filter isEligibleImage) ∧
    get_local_image exDirs8 1 "q" = some "wallpapers/q/c.PNG" := by
  have h := (c8_get_local_image_spec exDirs8 "q" 1).2
    [⟨"a.jpg", true⟩, ⟨"b.txt", true⟩, ⟨"c.PNG", true⟩] (by decide)
  refine ⟨?_, by decide, ?_⟩
  · exact (h.1 _ (by simp)).mpr ⟨rfl, "jpg", by simp, by decide⟩
  · have h3 := h.2.2.1 (by decide)
    rw [h3]
    decide
